import Mathlib

/-!
Shallow embedding of `crates/gpapi/src/portal/config.rs` from
GlobalProtect-openconnect: the portal-configuration data model, the gateway
selector (`find_gateway`, `find_preferred_gateway`, `sort_gateways`), the
network-topology classifier embedded in `retrieve_config`, the
response-error mapping, the empty-body / parse-failure handling, and the
final assembly of the `PortalConfig` value.

Machine integers (`u32` priorities) are modelled as `Nat`; the constant
`u32::MAX` appears explicitly where the source compares against it.
Fallible paths (the `unwrap` calls inside the selector) are modelled with
`Option`.  External collaborators (reverse DNS, IP parsing, the XML
document parser, the gateway-list parser) are passed as explicit function
parameters, so every definition stays executable.
-/

set_option autoImplicit false

/-- Numeric value of `u32::MAX`, the initial lowest-region-priority bound in
`find_preferred_gateway`. -/
def U32_MAX : Nat := 4294967295

/-- One row of a region-to-priority mapping (`PriorityRule` in the gateway
model): a region name (or the sentinel `"Any"`) and a numeric priority. -/
structure PriorityRule where
  name : String
  priority : Nat
deriving Repr, DecidableEq

/-- A connection target (`Gateway`): display name, address, baseline
priority and the list of region-scoped priority rules. -/
structure Gateway where
  name : String
  address : String
  priority : Nat
  priority_rules : List PriorityRule
deriving Repr, DecidableEq

/-- Derived session token (`AuthCookieCredential`). -/
structure AuthCookieCredential where
  username : String
  user_auth_cookie : String
  prelogon_user_auth_cookie : String
deriving Repr, DecidableEq

/-- Opaque input credential (external collaborator type); the portal code
only reads its username and clones it into the result. -/
structure Credential where
  username : String
deriving Repr, DecidableEq

/-- Result of a successful retrieval (`PortalConfig`). -/
structure PortalConfig where
  portal : String
  auth_cookie : AuthCookieCredential
  config_cred : Credential
  gateways : List Gateway
  config_digest : Option String
deriving Repr, DecidableEq

/-- Body of the inner `for rule in &gateway.priority_rules` loop of
`find_preferred_gateway`, folded over one gateway: a rule updates the
running `(preferred_gateway, lowest_region_priority)` state exactly when
its name equals the region or the sentinel `"Any"` and its priority is
strictly below the running bound. -/
def scanStep (region : String) (s : Option Gateway × Nat) (gw : Gateway) : Option Gateway × Nat :=
  gw.priority_rules.foldl
    (fun t r => if (r.name = region ∨ r.name = "Any") ∧ r.priority < t.2 then (some gw, r.priority) else t) s

/-- The full double loop of `find_preferred_gateway`, starting from
`(None, u32::MAX)`. -/
def findPreferredScan (gateways : List Gateway) (region : String) : Option Gateway × Nat :=
  gateways.foldl (scanStep region) (none, U32_MAX)

/-- Rust `Iterator::min_by_key(|gateway| gateway.priority)` on the gateway
list: `none` on the empty list, otherwise the first gateway of globally
minimal baseline priority (the fold replaces the best only on a strictly
smaller key, as `min_by_key` does). -/
def minByPriority : List Gateway → Option Gateway
  | [] => none
  | g :: gs => some (gs.foldl (fun best gw => if gw.priority < best.priority then gw else best) g)

/-- `PortalConfig::find_preferred_gateway`: the scan result when a rule
qualified, otherwise the `min_by_key` fallback.  The source `unwrap` on an
empty gateway list is modelled by `none`. -/
def PortalConfig.find_preferred_gateway (c : PortalConfig) (region : String) : Option Gateway :=
  match (findPreferredScan c.gateways region).1 with
  | some gw => some gw
  | none => minByPriority c.gateways

/-- `PortalConfig::find_gateway`: first gateway whose name or address
equals the input exactly. -/
def PortalConfig.find_gateway (c : PortalConfig) (s : String) : Option Gateway :=
  c.gateways.find? (fun gw => gw.name == s || gw.address == s)

/-- Rust `Iterator::position`: index of the first element satisfying the
predicate. -/
def position (p : Gateway → Bool) : List Gateway → Option Nat
  | [] => none
  | g :: rest => if p g then some 0 else (position p rest).map (fun n => n + 1)

/-- `Vec::swap i j` on a list: exchange the elements at positions `i` and
`j` (identity when either index is out of bounds; the source only calls it
with valid indices). -/
def listSwap (l : List Gateway) (i j : Nat) : List Gateway :=
  match l.get? i, l.get? j with
  | some a, some b => (l.set i b).set j a
  | some _, none => l
  | none, _ => l

/-- `PortalConfig::sort_gateways`: find the preferred gateway for the
region, locate the first gateway carrying its name, and swap it with
position 0.  The two source `unwrap`s are modelled by `none`. -/
def PortalConfig.sort_gateways (c : PortalConfig) (region : String) : Option PortalConfig :=
  match c.find_preferred_gateway region with
  | none => none
  | some pref =>
    match position (fun gw => gw.name == pref.name) c.gateways with
    | none => none
    | some i => some ⟨c.portal, c.auth_cookie, c.config_cred, listSwap c.gateways 0 i, c.config_digest⟩

/-- The double loop of `find_preferred_gateway`, flattened: the sequence of
(gateway, rule) pairs in exact scan order. -/
def flatPairs : List Gateway → List (Gateway × PriorityRule)
  | [] => []
  | gw :: rest => gw.priority_rules.map (fun r => (gw, r)) ++ flatPairs rest

/-- One step of the flattened scan: the update applied for a single
(gateway, rule) pair. -/
def pairStep (region : String) (s : Option Gateway × Nat) (q : Gateway × PriorityRule) : Option Gateway × Nat :=
  if (q.2.name = region ∨ q.2.name = "Any") ∧ q.2.priority < s.2 then (some q.1, q.2.priority) else s

/-- The flattened scan over a pair list from a given state. -/
def scanPairs (region : String) : Option Gateway × Nat → List (Gateway × PriorityRule) → Option Gateway × Nat
  | s, [] => s
  | s, q :: rest => scanPairs region (pairStep region s q) rest

/-- A (gateway, rule) pair qualifies against bound `b` when its rule names
the region (or the `"Any"` sentinel) and its priority is strictly below
`b`. -/
def qualifies (region : String) (b : Nat) (q : Gateway × PriorityRule) : Prop :=
  (q.2.name = region ∨ q.2.name = "Any") ∧ q.2.priority < b

instance (region : String) (b : Nat) (q : Gateway × PriorityRule) : Decidable (qualifies region b q) := by
  unfold qualifies
  infer_instance

theorem scanPairs_append (region : String) (l1 l2 : List (Gateway × PriorityRule)) :
    ∀ s, scanPairs region s (l1 ++ l2) = scanPairs region (scanPairs region s l1) l2 := by
  induction l1 with
  | nil => intro s; rfl
  | cons q rest ih => intro s; simpa [scanPairs] using ih (pairStep region s q)

theorem scanStep_eq_scanPairs (region : String) (gw : Gateway) :
    ∀ (rules : List PriorityRule) (s : Option Gateway × Nat),
      rules.foldl
        (fun t r => if (r.name = region ∨ r.name = "Any") ∧ r.priority < t.2 then (some gw, r.priority) else t) s =
      scanPairs region s (rules.map (fun r => (gw, r))) := by
  intro rules
  induction rules with
  | nil => intro s; rfl
  | cons r rs ih =>
    intro s
    simp only [List.foldl_cons, List.map_cons, scanPairs]
    rw [ih]
    rfl

theorem findPreferredScan_eq_scanPairs (gateways : List Gateway) (region : String) :
    findPreferredScan gateways region = scanPairs region (none, U32_MAX) (flatPairs gateways) := by
  have key : ∀ (gws : List Gateway) (s : Option Gateway × Nat),
      gws.foldl (scanStep region) s = scanPairs region s (flatPairs gws) := by
    intro gws
    induction gws with
    | nil => intro s; rfl
    | cons gw rest ih =>
      intro s
      simp only [List.foldl_cons, flatPairs, scanPairs_append]
      rw [ih, scanStep, scanStep_eq_scanPairs]
  exact key gateways (none, U32_MAX)

theorem flatPairs_mem (gws : List Gateway) (q : Gateway × PriorityRule) (h : q ∈ flatPairs gws) :
    q.1 ∈ gws ∧ q.2 ∈ q.1.priority_rules := by
  induction gws with
  | nil => simp [flatPairs] at h
  | cons gw rest ih =>
    simp only [flatPairs, List.mem_append, List.mem_map] at h
    rcases h with ⟨r, hr, hq⟩ | h
    · subst hq
      exact ⟨List.mem_cons_self _ _, hr⟩
    · exact ⟨List.mem_cons_of_mem _ (ih h).1, (ih h).2⟩

theorem flatPairs_mem_of (gws : List Gateway) (gw : Gateway) (r : PriorityRule)
    (hg : gw ∈ gws) (hr : r ∈ gw.priority_rules) : (gw, r) ∈ flatPairs gws := by
  induction gws with
  | nil => simp at hg
  | cons g rest ih =>
    simp only [flatPairs, List.mem_append, List.mem_map]
    rcases List.mem_cons.mp hg with h | h
    · subst h
      exact Or.inl ⟨r, hr, rfl⟩
    · exact Or.inr (ih h)

theorem scanPairs_char (region : String) (qs : List (Gateway × PriorityRule)) :
    ∀ (g0 : Option Gateway) (p0 : Nat),
      (scanPairs region (g0, p0) qs = (g0, p0) ∧ ∀ q ∈ qs, ¬ qualifies region p0 q) ∨
      (∃ i q, qs.get? i = some q ∧
        scanPairs region (g0, p0) qs = (some q.1, q.2.priority) ∧
        qualifies region p0 q ∧
        (∀ j e, qs.get? j = some e → qualifies region p0 e → q.2.priority ≤ e.2.priority) ∧
        (∀ j e, j < i → qs.get? j = some e → qualifies region p0 e → q.2.priority < e.2.priority)) := by
  induction qs with
  | nil =>
    intro g0 p0
    exact Or.inl ⟨rfl, by simp⟩
  | cons q rest ih =>
    intro g0 p0
    have hcons : scanPairs region (g0, p0) (q :: rest) = scanPairs region (pairStep region (g0, p0) q) rest := rfl
    by_cases hq : qualifies region p0 q
    · have hstep : pairStep region (g0, p0) q = (some q.1, q.2.priority) := by
        unfold qualifies at hq
        simp [pairStep, hq]
      rcases ih (some q.1) q.2.priority with ⟨heq, hnone⟩ | ⟨i, e, hget, heq, hqe, hmin, hstrict⟩
    /- after the head pair qualifies, no later pair beats its priority -/
      · refine Or.inr ⟨0, q, rfl, ?_, hq, ?_, ?_⟩
        · rw [hcons, hstep, heq]
        · intro j f hj hqual
          cases j with
          | zero =>
            have hf : q = f := by simpa using hj
            subst hf
            exact le_refl _
          | succ j' =>
            have hj' : rest.get? j' = some f := by simpa using hj
            have hmem : f ∈ rest := List.get?_mem hj'
            have hno := hnone f hmem
            unfold qualifies at hno hqual
            by_contra hlt
            push_neg at hlt
            exact hno ⟨hqual.1, hlt⟩
        · intro j f hjlt _ _
          omega
    /- the head pair qualifies but a later pair strictly beats it -/
      · refine Or.inr ⟨i + 1, e, by simpa using hget, ?_, ?_, ?_, ?_⟩
        · rw [hcons, hstep]; exact heq
        · unfold qualifies at hqe hq ⊢
          exact ⟨hqe.1, lt_trans hqe.2 hq.2⟩
        · intro j f hj hqual
          cases j with
          | zero =>
            have hf : q = f := by simpa using hj
            subst hf
            exact le_of_lt hqe.2
          | succ j' =>
            have hj' : rest.get? j' = some f := by simpa using hj
            by_cases hflt : f.2.priority < q.2.priority
            · refine hmin j' f hj' ?_
              unfold qualifies at hqual ⊢
              exact ⟨hqual.1, hflt⟩
            · have h1 : e.2.priority < q.2.priority := hqe.2
              omega
        · intro j f hjlt hj hqual
          cases j with
          | zero =>
            have hf : q = f := by simpa using hj
            subst hf
            exact hqe.2
          | succ j' =>
            have hj' : rest.get? j' = some f := by simpa using hj
            have hj'lt : j' < i := by omega
            by_cases hflt : f.2.priority < q.2.priority
            · refine hstrict j' f hj'lt hj' ?_
              unfold qualifies at hqual ⊢
              exact ⟨hqual.1, hflt⟩
            · have h1 : e.2.priority < q.2.priority := hqe.2
              omega
    · have hstep : pairStep region (g0, p0) q = (g0, p0) := by
        unfold qualifies at hq
        simp [pairStep, hq]
      rcases ih g0 p0 with ⟨heq, hnone⟩ | ⟨i, e, hget, heq, hqe, hmin, hstrict⟩
      · refine Or.inl ⟨by rw [hcons, hstep, heq], ?_⟩
        intro q' hq'
        rcases List.mem_cons.mp hq' with h | h
        · subst h; exact hq
        · exact hnone q' h
      · refine Or.inr ⟨i + 1, e, by simpa using hget, by rw [hcons, hstep]; exact heq, hqe, ?_, ?_⟩
        · intro j f hj hqual
          cases j with
          | zero =>
            have hf : q = f := by simpa using hj
            subst hf
            exact absurd hqual hq
          | succ j' =>
            exact hmin j' f (by simpa using hj) hqual
        · intro j f hjlt hj hqual
          cases j with
          | zero =>
            have hf : q = f := by simpa using hj
            subst hf
            exact absurd hqual hq
          | succ j' =>
            exact hstrict j' f (by omega) (by simpa using hj) hqual

theorem scanPairs_no_qual (region : String) (qs : List (Gateway × PriorityRule)) :
    ∀ (s : Option Gateway × Nat), (∀ q ∈ qs, ¬ qualifies region s.2 q) → scanPairs region s qs = s := by
  induction qs with
  | nil => intro s _; rfl
  | cons q rest ih =>
    intro s hno
    have hstep : pairStep region s q = s := by
      have hq := hno q (List.mem_cons_self _ _)
      unfold qualifies at hq
      cases s with
      | mk g p => simp [pairStep, hq]
    show scanPairs region (pairStep region s q) rest = s
    rw [hstep]
    exact ih s (fun q' hq' => hno q' (List.mem_cons_of_mem _ hq'))

theorem minFold_char (gs : List Gateway) :
    ∀ (b : Gateway),
      (gs.foldl (fun best gw => if gw.priority < best.priority then gw else best) b = b ∧
        ∀ g ∈ gs, b.priority ≤ g.priority) ∨
      (∃ i g, gs.get? i = some g ∧
        gs.foldl (fun best gw => if gw.priority < best.priority then gw else best) b = g ∧
        g.priority < b.priority ∧
        (∀ j e, gs.get? j = some e → g.priority ≤ e.priority) ∧
        (∀ j e, j < i → gs.get? j = some e → g.priority < e.priority)) := by
  induction gs with
  | nil => intro b; exact Or.inl ⟨rfl, by simp⟩
  | cons g rest ih =>
    intro b
    by_cases hlt : g.priority < b.priority
    · have hstep : (if g.priority < b.priority then g else b) = g := if_pos hlt
      rcases ih g with ⟨heq, hbound⟩ | ⟨i, m, hget, heq, hmlt, hmin, hstrict⟩
      · refine Or.inr ⟨0, g, rfl, ?_, hlt, ?_, ?_⟩
        · simpa [hstep] using heq
        · intro j e hj
          cases j with
          | zero =>
            have he : g = e := by simpa using hj
            subst he
            exact le_refl _
          | succ j' =>
            exact hbound e (List.get?_mem (by simpa using hj))
        · intro j e hjlt _
          omega
      · refine Or.inr ⟨i + 1, m, by simpa using hget, ?_, lt_trans hmlt hlt, ?_, ?_⟩
        · simpa [hstep] using heq
        · intro j e hj
          cases j with
          | zero =>
            have he : g = e := by simpa using hj
            subst he
            exact le_of_lt hmlt
          | succ j' =>
            exact hmin j' e (by simpa using hj)
        · intro j e hjlt hj
          cases j with
          | zero =>
            have he : g = e := by simpa using hj
            subst he
            exact hmlt
          | succ j' =>
            exact hstrict j' e (by omega) (by simpa using hj)
    · have hstep : (if g.priority < b.priority then g else b) = b := if_neg hlt
      rcases ih b with ⟨heq, hbound⟩ | ⟨i, m, hget, heq, hmlt, hmin, hstrict⟩
      · refine Or.inl ⟨by simpa [hstep] using heq, ?_⟩
        intro e he
        rcases List.mem_cons.mp he with h | h
        · subst h; omega
        · exact hbound e h
      · refine Or.inr ⟨i + 1, m, by simpa using hget, by simpa [hstep] using heq, hmlt, ?_, ?_⟩
        · intro j e hj
          cases j with
          | zero =>
            have he : g = e := by simpa using hj
            subst he
            omega
          | succ j' =>
            exact hmin j' e (by simpa using hj)
        · intro j e hjlt hj
          cases j with
          | zero =>
            have he : g = e := by simpa using hj
            subst he
            omega
          | succ j' =>
            exact hstrict j' e (by omega) (by simpa using hj)

theorem minByPriority_char (l : List Gateway) (h : l ≠ []) :
    ∃ i g, l.get? i = some g ∧ minByPriority l = some g ∧
      (∀ j e, l.get? j = some e → g.priority ≤ e.priority) ∧
      (∀ j e, j < i → l.get? j = some e → g.priority < e.priority) := by
  cases l with
  | nil => exact absurd rfl h
  | cons g rest =>
    rcases minFold_char rest g with ⟨heq, hbound⟩ | ⟨i, m, hget, heq, hmlt, hmin, hstrict⟩
    · refine ⟨0, g, rfl, by simp [minByPriority, heq], ?_, ?_⟩
      · intro j e hj
        cases j with
        | zero =>
          have he : g = e := by simpa using hj
          subst he
          exact le_refl _
        | succ j' =>
          exact hbound e (List.get?_mem (by simpa using hj))
      · intro j e hjlt _
        omega
    · refine ⟨i + 1, m, by simpa using hget, by simp [minByPriority, heq], ?_, ?_⟩
      · intro j e hj
        cases j with
        | zero =>
          have he : g = e := by simpa using hj
          subst he
          exact le_of_lt hmlt
        | succ j' =>
          exact hmin j' e (by simpa using hj)
      · intro j e hjlt hj
        cases j with
        | zero =>
          have he : g = e := by simpa using hj
          subst he
          exact hmlt
        | succ j' =>
          exact hstrict j' e (by omega) (by simpa using hj)

theorem minByPriority_mem (l : List Gateway) (h : l ≠ []) :
    ∃ g, minByPriority l = some g ∧ g ∈ l := by
  rcases minByPriority_char l h with ⟨i, g, hget, heq, _, _⟩
  exact ⟨g, heq, List.get?_mem hget⟩

theorem find_preferred_some_mem (c : PortalConfig) (region : String) (h : c.gateways ≠ []) :
    ∃ g, c.find_preferred_gateway region = some g ∧ g ∈ c.gateways := by
  cases hscan : (findPreferredScan c.gateways region).1 with
  | some gw =>
    have hmem : gw ∈ c.gateways := by
      have hflat := findPreferredScan_eq_scanPairs c.gateways region
      rcases scanPairs_char region (flatPairs c.gateways) none U32_MAX with ⟨hs, _⟩ | ⟨i, q, hget, hs, _, _, _⟩
      · rw [hflat, hs] at hscan
        simp at hscan
      · rw [hflat, hs] at hscan
        have hg : q.1 = gw := by simpa using hscan
        subst hg
        exact (flatPairs_mem _ q (List.get?_mem hget)).1
    exact ⟨gw, by simp [PortalConfig.find_preferred_gateway, hscan], hmem⟩
  | none =>
    rcases minByPriority_mem c.gateways h with ⟨g, heq, hmem⟩
    exact ⟨g, by simp [PortalConfig.find_preferred_gateway, hscan, heq], hmem⟩

/-- Claim C1: `find_preferred_gateway` scans every gateway and, within each,
every priority rule in list order; a rule qualifies only when its region
name equals the requested region or the `"Any"` sentinel and its priority is
strictly below the running best, so the selected pair is the first
occurrence of the minimal qualifying priority — earlier qualifying pairs
all have strictly greater priority, hence a later rule with equal priority
never displaces an earlier one; when no pair qualifies the scan yields no
gateway, and a successful scan decides the returned gateway. -/
theorem find_preferred_gateway_scan_order (c : PortalConfig) (region : String) :
    (∀ g p, findPreferredScan c.gateways region = (some g, p) →
      ∃ i q, (flatPairs c.gateways).get? i = some q ∧ q.1 = g ∧ q.2.priority = p ∧
        qualifies region U32_MAX q ∧
        (∀ j e, (flatPairs c.gateways).get? j = some e → qualifies region U32_MAX e → p ≤ e.2.priority) ∧
        (∀ j e, j < i → (flatPairs c.gateways).get? j = some e → qualifies region U32_MAX e → p < e.2.priority)) ∧
    ((∀ q ∈ flatPairs c.gateways, ¬ qualifies region U32_MAX q) →
      (findPreferredScan c.gateways region).1 = none) ∧
    (∀ g, (findPreferredScan c.gateways region).1 = some g →
      c.find_preferred_gateway region = some g) := by
  have hflat := findPreferredScan_eq_scanPairs c.gateways region
  refine ⟨?_, ?_, ?_⟩
  · intro g p heq
    rcases scanPairs_char region (flatPairs c.gateways) none U32_MAX with ⟨hs, _⟩ | ⟨i, q, hget, hs, hq, hmin, hstrict⟩
    · rw [hflat, hs] at heq
      simp at heq
    · rw [hflat, hs] at heq
      have hg : q.1 = g := by simpa using congrArg Prod.fst heq
      have hp : q.2.priority = p := congrArg Prod.snd heq
      subst hg
      subst hp
      exact ⟨i, q, hget, rfl, rfl, hq, hmin, hstrict⟩
  · intro hno
    have hrun : scanPairs region (none, U32_MAX) (flatPairs c.gateways) = (none, U32_MAX) :=
      scanPairs_no_qual region (flatPairs c.gateways) (none, U32_MAX) (fun q hq => hno q hq)
    rw [hflat, hrun]
  · intro g h
    simp [PortalConfig.find_preferred_gateway, h]

/-- Claim C2: when no gateway has a rule naming the region or the `"Any"`
sentinel with priority below `u32::MAX`, `find_preferred_gateway` returns
the gateway with the globally lowest baseline priority, first occurrence on
ties (every earlier gateway has strictly greater baseline priority). -/
theorem find_preferred_gateway_fallback (c : PortalConfig) (region : String)
    (hne : c.gateways ≠ [])
    (hno : ∀ gw ∈ c.gateways, ∀ r ∈ gw.priority_rules,
      (r.name = region ∨ r.name = "Any") → ¬ r.priority < U32_MAX) :
    ∃ i g, c.gateways.get? i = some g ∧ c.find_preferred_gateway region = some g ∧
      (∀ j e, c.gateways.get? j = some e → g.priority ≤ e.priority) ∧
      (∀ j e, j < i → c.gateways.get? j = some e → g.priority < e.priority) := by
  have hscan : findPreferredScan c.gateways region = (none, U32_MAX) := by
    rw [findPreferredScan_eq_scanPairs]
    refine scanPairs_no_qual region _ _ ?_
    intro q hq hqual
    rcases flatPairs_mem _ q hq with ⟨h1, h2⟩
    exact hno q.1 h1 q.2 h2 hqual.1 hqual.2
  rcases minByPriority_char c.gateways hne with ⟨i, g, hget, heq, hmin, hstrict⟩
  refine ⟨i, g, hget, ?_, hmin, hstrict⟩
  simp [PortalConfig.find_preferred_gateway, hscan, heq]

/-- Claim C4: on a non-empty gateway list `find_preferred_gateway` always
returns a gateway (the internal `unwrap` is unreachable), the returned
gateway is an element of the list, and the result is deterministic for
identical input. -/
theorem find_preferred_gateway_total (c : PortalConfig) (region : String)
    (h : c.gateways ≠ []) :
    ∃ g, c.find_preferred_gateway region = some g ∧ g ∈ c.gateways ∧
      ∀ r2 : String, r2 = region → c.find_preferred_gateway r2 = some g := by
  cases hscan : (findPreferredScan c.gateways region).1 with
  | some gw =>
    have hmem : gw ∈ c.gateways := by
      have hflat := findPreferredScan_eq_scanPairs c.gateways region
      rcases scanPairs_char region (flatPairs c.gateways) none U32_MAX with ⟨hs, _⟩ | ⟨i, q, hget, hs, _, _, _⟩
      · rw [hflat, hs] at hscan
        simp at hscan
      · rw [hflat, hs] at hscan
        have hg : q.1 = gw := by simpa using hscan
        subst hg
        exact (flatPairs_mem _ q (List.get?_mem hget)).1
    refine ⟨gw, ?_, hmem, ?_⟩
    · simp [PortalConfig.find_preferred_gateway, hscan]
    · intro r2 hr2
      subst hr2
      simp [PortalConfig.find_preferred_gateway, hscan]
  | none =>
    rcases minByPriority_mem c.gateways h with ⟨g, heq, hmem⟩
    refine ⟨g, ?_, hmem, ?_⟩
    · simp [PortalConfig.find_preferred_gateway, hscan, heq]
    · intro r2 hr2
      subst hr2
      simp [PortalConfig.find_preferred_gateway, hscan, heq]

/-- Claim C10: a rule whose priority equals `u32::MAX` never qualifies (the
comparison against the initial bound is strict), so a region matched only
by maximum-priority rules is treated as unmatched and selection falls
through to the baseline-priority fallback. -/
theorem max_priority_rule_never_qualifies (c : PortalConfig) (region : String)
    (h : ∀ gw ∈ c.gateways, ∀ r ∈ gw.priority_rules,
      (r.name = region ∨ r.name = "Any") → r.priority = U32_MAX) :
    findPreferredScan c.gateways region = (none, U32_MAX) ∧
    c.find_preferred_gateway region = minByPriority c.gateways := by
  have hscan : findPreferredScan c.gateways region = (none, U32_MAX) := by
    rw [findPreferredScan_eq_scanPairs]
    refine scanPairs_no_qual region _ _ ?_
    intro q hq hqual
    rcases flatPairs_mem _ q hq with ⟨h1, h2⟩
    have hmax := h q.1 h1 q.2 h2 hqual.1
    have hlt : q.2.priority < U32_MAX := hqual.2
    rw [hmax] at hlt
    exact lt_irrefl _ hlt
  exact ⟨hscan, by simp [PortalConfig.find_preferred_gateway, hscan]⟩

/-- Witness gateway with a region-specific rule (the example of spec §8:
rule priority 5 for region EU). -/
def gwOne : Gateway := ⟨"gw1", "gw1.example.com", 2, [⟨"EU", 5⟩]⟩

/-- Witness gateway with an `"Any"` rule of priority 3. -/
def gwTwo : Gateway := ⟨"gw2", "gw2.example.com", 7, [⟨"Any", 3⟩]⟩

/-- Witness portal configuration with two gateways. -/
def wConfig : PortalConfig := ⟨"portal.example.com", ⟨"user", "", ""⟩, ⟨"user"⟩, [gwOne, gwTwo], none⟩

/-- Witness gateway whose only rule names a different region. -/
def gwThree : Gateway := ⟨"gw3", "gw3.example.com", 4, [⟨"EU", 5⟩]⟩

/-- Witness gateway with no rules and the lowest baseline priority. -/
def gwFour : Gateway := ⟨"gw4", "gw4.example.com", 1, []⟩

/-- Witness portal configuration where no rule matches region US. -/
def wConfig2 : PortalConfig := ⟨"portal.example.com", ⟨"user", "", ""⟩, ⟨"user"⟩, [gwThree, gwFour], none⟩

/-- Witness gateway whose matching rule carries priority `u32::MAX`. -/
def gwFive : Gateway := ⟨"gw5", "gw5.example.com", 9, [⟨"US", U32_MAX⟩]⟩

/-- Witness gateway whose `"Any"` rule carries priority `u32::MAX`. -/
def gwSix : Gateway := ⟨"gw6", "gw6.example.com", 2, [⟨"Any", U32_MAX⟩]⟩

/-- Witness portal configuration matched only by maximum-priority rules. -/
def wConfig3 : PortalConfig := ⟨"portal.example.com", ⟨"user", "", ""⟩, ⟨"user"⟩, [gwFive, gwSix], none⟩

/-- Witness for C1: on `wConfig` and region EU the scan ends at the
`"Any"` rule of priority 3 (spec §8: H wins, 3 < 5), and the
characterization applies there. -/
theorem find_preferred_gateway_scan_order_witness :
    findPreferredScan wConfig.gateways "EU" = (some gwTwo, 3) ∧
    (∃ i q, (flatPairs wConfig.gateways).get? i = some q ∧ q.1 = gwTwo ∧ q.2.priority = 3 ∧
      qualifies "EU" U32_MAX q ∧
      (∀ j e, (flatPairs wConfig.gateways).get? j = some e → qualifies "EU" U32_MAX e → 3 ≤ e.2.priority) ∧
      (∀ j e, j < i → (flatPairs wConfig.gateways).get? j = some e → qualifies "EU" U32_MAX e → 3 < e.2.priority)) :=
  ⟨by decide, (find_preferred_gateway_scan_order wConfig "EU").1 gwTwo 3 (by decide)⟩

/-- Witness for C2: on `wConfig2` no rule matches region US and the
fallback picks `gwFour`, the gateway of lowest baseline priority. -/
theorem find_preferred_gateway_fallback_witness :
    wConfig2.gateways ≠ [] ∧
    (∀ gw ∈ wConfig2.gateways, ∀ r ∈ gw.priority_rules,
      (r.name = "US" ∨ r.name = "Any") → ¬ r.priority < U32_MAX) ∧
    (∃ i g, wConfig2.gateways.get? i = some g ∧ wConfig2.find_preferred_gateway "US" = some g ∧
      (∀ j e, wConfig2.gateways.get? j = some e → g.priority ≤ e.priority) ∧
      (∀ j e, j < i → wConfig2.gateways.get? j = some e → g.priority < e.priority)) :=
  ⟨by decide, by decide, find_preferred_gateway_fallback wConfig2 "US" (by decide) (by decide)⟩

/-- Witness for C4: on `wConfig` and region EU the selector returns a
member of the list. -/
theorem find_preferred_gateway_total_witness :
    wConfig.gateways ≠ [] ∧
    (∃ g, wConfig.find_preferred_gateway "EU" = some g ∧ g ∈ wConfig.gateways ∧
      ∀ r2 : String, r2 = "EU" → wConfig.find_preferred_gateway r2 = some g) :=
  ⟨by decide, find_preferred_gateway_total wConfig "EU" (by decide)⟩

/-- Witness for C10: on `wConfig3` every matching rule has priority
`u32::MAX`, so the scan yields nothing and the fallback decides. -/
theorem max_priority_rule_never_qualifies_witness :
    (∀ gw ∈ wConfig3.gateways, ∀ r ∈ gw.priority_rules,
      (r.name = "US" ∨ r.name = "Any") → r.priority = U32_MAX) ∧
    (findPreferredScan wConfig3.gateways "US" = (none, U32_MAX) ∧
      wConfig3.find_preferred_gateway "US" = minByPriority wConfig3.gateways) :=
  ⟨by decide, max_priority_rule_never_qualifies wConfig3 "US" (by decide)⟩

theorem find?_first_char {α : Type} (p : α → Bool) (l : List α) (a : α) (h : l.find? p = some a) :
    p a = true ∧ ∃ i, l.get? i = some a ∧ ∀ j e, j < i → l.get? j = some e → p e = false := by
  induction l with
  | nil => simp at h
  | cons x rest ih =>
    by_cases hx : p x = true
    · rw [List.find?_cons_of_pos rest hx] at h
      have hax : x = a := by simpa using h
      subst hax
      refine ⟨hx, 0, rfl, ?_⟩
      intro j e hj _
      omega
    · rw [List.find?_cons_of_neg rest hx] at h
      rcases ih h with ⟨hpa, i, hget, hfirst⟩
      refine ⟨hpa, i + 1, by simpa using hget, ?_⟩
      intro j e hj hje
      cases j with
      | zero =>
        have hex : x = e := by simpa using hje
        subst hex
        exact Bool.not_eq_true _ ▸ eq_false_of_ne_true hx
      | succ j' =>
        exact hfirst j' e (by omega) (by simpa using hje)

/-- Claim C6: `find_gateway` returns the first gateway in list order whose
name or address equals the input exactly (all earlier gateways match on
neither field), and returns `none` exactly when no gateway matches. -/
theorem find_gateway_first_match (c : PortalConfig) (s : String) :
    (∀ g, c.find_gateway s = some g → (g.name = s ∨ g.address = s) ∧
      ∃ i, c.gateways.get? i = some g ∧
        ∀ j e, j < i → c.gateways.get? j = some e → e.name ≠ s ∧ e.address ≠ s) ∧
    (c.find_gateway s = none ↔ ∀ g ∈ c.gateways, g.name ≠ s ∧ g.address ≠ s) := by
  constructor
  · intro g h
    rcases find?_first_char _ _ _ h with ⟨hpg, i, hget, hfirst⟩
    refine ⟨?_, i, hget, ?_⟩
    · simpa using hpg
    · intro j e hj hje
      have := hfirst j e hj hje
      simpa using this
  · rw [PortalConfig.find_gateway, List.find?_eq_none]
    constructor
    · intro h g hg
      have := h g hg
      simpa using this
    · intro h g hg
      have := h g hg
      simp [this.1, this.2]

/-- Witness for C6: on `wConfig`, looking up by address finds `gwTwo` and
every earlier gateway matches on neither field; an unmatched input yields
`none`. -/
theorem find_gateway_first_match_witness :
    wConfig.find_gateway "gw2.example.com" = some gwTwo ∧
    ((gwTwo.name = "gw2.example.com" ∨ gwTwo.address = "gw2.example.com") ∧
      ∃ i, wConfig.gateways.get? i = some gwTwo ∧
        ∀ j e, j < i → wConfig.gateways.get? j = some e →
          e.name ≠ "gw2.example.com" ∧ e.address ≠ "gw2.example.com") :=
  ⟨by decide, (find_gateway_first_match wConfig "gw2.example.com").1 gwTwo (by decide)⟩

theorem position_char (p : Gateway → Bool) (l : List Gateway) :
    ∀ i, position p l = some i →
      ∃ a, l.get? i = some a ∧ p a = true ∧ ∀ j e, j < i → l.get? j = some e → p e = false := by
  induction l with
  | nil => intro i h; simp [position] at h
  | cons x rest ih =>
    intro i h
    by_cases hx : p x = true
    · have hi : i = 0 := by
        simp [position, hx] at h
        omega
      subst hi
      refine ⟨x, rfl, hx, ?_⟩
      intro j e hj _
      omega
    · simp only [position, if_neg hx, Option.map_eq_some'] at h
      rcases h with ⟨n, hn, hni⟩
      rcases ih n hn with ⟨a, hget, hpa, hfirst⟩
      refine ⟨a, ?_, hpa, ?_⟩
      · rw [← hni]
        simpa using hget
      · intro j e hj hje
        cases j with
        | zero =>
          have hex : x = e := by simpa using hje
          subst hex
          exact eq_false_of_ne_true hx
        | succ j' =>
          refine hfirst j' e ?_ (by simpa using hje)
          omega

theorem position_isSome (p : Gateway → Bool) (l : List Gateway) (a : Gateway)
    (ha : a ∈ l) (hp : p a = true) : ∃ i, position p l = some i := by
  induction l with
  | nil => simp at ha
  | cons x rest ih =>
    by_cases hx : p x = true
    · exact ⟨0, by simp [position, hx]⟩
    · rcases List.mem_cons.mp ha with h | h
      · subst h
        exact absurd hp hx
      · rcases ih h with ⟨n, hn⟩
        exact ⟨n + 1, by simp [position, hx, hn]⟩

theorem set_cons_perm (xs : List Gateway) :
    ∀ (m : Nat) (x y : Gateway), xs.get? m = some y → (y :: xs.set m x).Perm (x :: xs) := by
  induction xs with
  | nil => intro m x y h; simp at h
  | cons a t ih =>
    intro m x y h
    cases m with
    | zero =>
      have hy : a = y := by simpa using h
      subst hy
      simpa using List.Perm.swap x a t
    | succ m' =>
      have h' : t.get? m' = some y := by simpa using h
      have hset : (a :: t).set (m' + 1) x = a :: t.set m' x := rfl
      rw [hset]
      exact ((List.Perm.swap a y (t.set m' x)).trans ((ih m' x y h').cons a)).trans (List.Perm.swap x a t)

theorem listSwap_zero_spec (l : List Gateway) (i : Nat) (a e : Gateway)
    (h0 : l.get? 0 = some a) (hi : l.get? i = some e) :
    (listSwap l 0 i).get? 0 = some e ∧ (listSwap l 0 i).get? i = some a ∧
    (∀ j, j ≠ 0 → j ≠ i → (listSwap l 0 i).get? j = l.get? j) ∧
    (listSwap l 0 i).Perm l ∧ (i = 0 → listSwap l 0 i = l) := by
  have hswap : listSwap l 0 i = (l.set 0 e).set i a := by
    unfold listSwap
    rw [h0, hi]
  cases l with
  | nil => simp at h0
  | cons x t =>
    have hx : x = a := by simpa using h0
    subst hx
    cases i with
    | zero =>
      have hae : x = e := by simpa using hi
      subst hae
      have hl : listSwap (x :: t) 0 0 = x :: t := by rw [hswap]; rfl
      rw [hl]
      exact ⟨rfl, rfl, fun j _ _ => rfl, List.Perm.refl _, fun _ => rfl⟩
    | succ m =>
      have hm : t.get? m = some e := by simpa using hi
      have hswap2 : listSwap (x :: t) 0 (m + 1) = e :: t.set m x := by rw [hswap]; rfl
      refine ⟨by rw [hswap2]; rfl, ?_, ?_, ?_, ?_⟩
      · rw [hswap2]
        show (t.set m x).get? m = some x
        rw [List.get?_set_eq, hm]
        rfl
      · intro j hj0 hji
        rw [hswap2]
        cases j with
        | zero => exact absurd rfl hj0
        | succ j' =>
          have hj'm : m ≠ j' := fun hh => hji (by rw [hh])
          show (t.set m x).get? j' = (x :: t).get? (j' + 1)
          rw [List.get?_set_ne x t hj'm]
          rfl
      · rw [hswap2]
        exact set_cons_perm t m x e hm
      · intro hcontra
        exact absurd hcontra (by omega)

/-- Counterexample gateway: shares its name with `gwDupB` but has the higher
baseline priority. -/
def gwDupA : Gateway := ⟨"dup", "addr1", 5, []⟩

/-- Counterexample gateway: shares its name with `gwDupA` and has the lowest
baseline priority, so it is the preferred gateway. -/
def gwDupB : Gateway := ⟨"dup", "addr2", 1, []⟩

/-- Counterexample portal configuration with two gateways of equal name. -/
def dupConfig : PortalConfig := ⟨"portal.example.com", ⟨"user", "", ""⟩, ⟨"user"⟩, [gwDupA, gwDupB], none⟩

/-- Counterexample to C5 as stated: on `dupConfig` the preferred gateway is
`gwDupB`, but `sort_gateways` locates the swap index by name match and
finds index 0 (`gwDupA` carries the same name), so the list is returned
unchanged and the preferred gateway does not end up at position 0. -/
theorem sort_gateways_cex :
    dupConfig.find_preferred_gateway "EU" = some gwDupB ∧
    dupConfig.sort_gateways "EU" = some dupConfig ∧
    dupConfig.gateways.get? 0 = some gwDupA ∧
    gwDupA ≠ gwDupB := by decide

/-- Claim C5 (amended): `sort_gateways` leaves the multiset of gateways
unchanged and performs exactly one two-element swap — position 0 is
exchanged with the position of the FIRST gateway whose name equals the
preferred gateway's name (which is the preferred gateway itself whenever
gateway names are pairwise distinct); every other gateway keeps its
position, and when that index is 0 the list is unchanged. -/
theorem sort_gateways_single_swap (c : PortalConfig) (region : String) (h : c.gateways ≠ []) :
    ∃ pref i c',
      c.find_preferred_gateway region = some pref ∧
      c.sort_gateways region = some c' ∧
      (∃ e, c.gateways.get? i = some e ∧ e.name = pref.name ∧
        ∀ j f, j < i → c.gateways.get? j = some f → f.name ≠ pref.name) ∧
      c'.gateways.get? 0 = c.gateways.get? i ∧
      c'.gateways.get? i = c.gateways.get? 0 ∧
      (∀ j, j ≠ 0 → j ≠ i → c'.gateways.get? j = c.gateways.get? j) ∧
      c'.gateways.Perm c.gateways ∧
      (i = 0 → c'.gateways = c.gateways) ∧
      (c.gateways.Pairwise (fun g1 g2 => g1.name ≠ g2.name) → c'.gateways.get? 0 = some pref) := by
  obtain ⟨pref, hpref, hmem⟩ := find_preferred_some_mem c region h
  obtain ⟨idx, hidx⟩ := position_isSome (fun gw => gw.name == pref.name) c.gateways pref hmem (by simp)
  obtain ⟨e, hgete, hpe, hfirst⟩ := position_char _ _ idx hidx
  have hename : e.name = pref.name := by simpa using hpe
  obtain ⟨a, ha⟩ : ∃ a, c.gateways.get? 0 = some a := by
    cases hl : c.gateways with
    | nil => exact absurd hl h
    | cons x t => exact ⟨x, rfl⟩
  have hspec := listSwap_zero_spec c.gateways idx a e ha hgete
  refine ⟨pref, idx, ⟨c.portal, c.auth_cookie, c.config_cred, listSwap c.gateways 0 idx, c.config_digest⟩,
    hpref, ?_, ⟨e, hgete, hename, ?_⟩, ?_, ?_, ?_, hspec.2.2.2.1, ?_, ?_⟩
  · simp [PortalConfig.sort_gateways, hpref, hidx]
  · intro j f hj hjf
    have := hfirst j f hj hjf
    simpa using this
  · show (listSwap c.gateways 0 idx).get? 0 = c.gateways.get? idx
    rw [hspec.1, hgete]
  · show (listSwap c.gateways 0 idx).get? idx = c.gateways.get? 0
    rw [hspec.2.1, ha]
  · exact hspec.2.2.1
  · intro hz
    show listSwap c.gateways 0 idx = c.gateways
    exact hspec.2.2.2.2 hz
  · intro hpw
    obtain ⟨k, hgetk⟩ := List.mem_iff_get?.mp hmem
    rcases lt_trichotomy idx k with hlt | heqk | hgt
    · obtain ⟨hik, hie⟩ := List.get?_eq_some.mp hgete
      obtain ⟨hkk, hke⟩ := List.get?_eq_some.mp hgetk
      have hne := List.pairwise_iff_get.mp hpw ⟨idx, hik⟩ ⟨k, hkk⟩ (Fin.mk_lt_mk.mpr hlt)
      rw [hie, hke] at hne
      exact absurd hename hne
    · rw [← heqk] at hgetk
      have hep : e = pref := Option.some.inj (hgete.symm.trans hgetk)
      show (listSwap c.gateways 0 idx).get? 0 = some pref
      rw [hspec.1, hep]
    · have := hfirst k pref hgt hgetk
      simp at this

/-- Witness for C5 (amended): on `wConfig` (distinct names) and region EU
the preferred gateway `gwTwo` sits at index 1 and is swapped to the
front. -/
theorem sort_gateways_single_swap_witness :
    wConfig.gateways ≠ [] ∧
    (∃ pref i c',
      wConfig.find_preferred_gateway "EU" = some pref ∧
      wConfig.sort_gateways "EU" = some c' ∧
      (∃ e, wConfig.gateways.get? i = some e ∧ e.name = pref.name ∧
        ∀ j f, j < i → wConfig.gateways.get? j = some f → f.name ≠ pref.name) ∧
      c'.gateways.get? 0 = wConfig.gateways.get? i ∧
      c'.gateways.get? i = wConfig.gateways.get? 0 ∧
      (∀ j, j ≠ 0 → j ≠ i → c'.gateways.get? j = wConfig.gateways.get? j) ∧
      c'.gateways.Perm wConfig.gateways ∧
      (i = 0 → c'.gateways = wConfig.gateways) ∧
      (wConfig.gateways.Pairwise (fun g1 g2 => g1.name ≠ g2.name) → c'.gateways.get? 0 = some pref)) :=
  ⟨by decide, sort_gateways_single_swap wConfig "EU" (by decide)⟩

/-- Modelled from the spec: the gateway module is an external collaborator
not under review; its constructor `Gateway::new(name, address)` produces a
gateway whose name and address are the two given strings (spec §4.2: the
synthesized fallback gateway's name and address both equal the normalized
server host). -/
def Gateway.new (name address : String) : Gateway := ⟨name, address, 0, []⟩

/-- Final assembly step of `retrieve_config` (source lines 160-179): take
the gateway list produced by the `parse_gateways` collaborator (`none`
when the response holds no gateway list), the optional cookie and digest
texts, and build the `PortalConfig`; an empty gateway list is replaced by
the single synthesized gateway `Gateway::new(server, server)`. -/
def assemble_config (server : String) (cred : Credential) (parsed : Option (List Gateway))
    (user_cookie prelogon_cookie config_digest : Option String) : PortalConfig :=
  let gateways := parsed.getD []
  let gateways := if gateways.isEmpty then [Gateway.new server server] else gateways
  ⟨server, ⟨cred.username, user_cookie.getD "", prelogon_cookie.getD ""⟩, cred, gateways, config_digest⟩

/-- Claim C3: every `PortalConfig` assembled by `retrieve_config` has a
non-empty gateway list; when the gateway-list collaborator yields zero
gateways (no list at all, or an empty one) exactly one gateway is
synthesized whose name and address both equal the bare server string, and
a non-empty collaborator list is kept as is. -/
theorem assemble_config_gateways_nonempty (server : String) (cred : Credential)
    (parsed : Option (List Gateway)) (uc pc cd : Option String) :
    (assemble_config server cred parsed uc pc cd).gateways ≠ [] ∧
    (parsed.getD [] = [] →
      (assemble_config server cred parsed uc pc cd).gateways = [Gateway.new server server] ∧
      (Gateway.new server server).name = server ∧ (Gateway.new server server).address = server) ∧
    (∀ gs, parsed = some gs → gs ≠ [] →
      (assemble_config server cred parsed uc pc cd).gateways = gs) := by
  refine ⟨?_, ?_, ?_⟩
  · by_cases he : (parsed.getD []).isEmpty
    · simp [assemble_config, he]
    · simp [assemble_config, he]
      intro hnil
      rw [hnil] at he
      exact he rfl
  · intro hnil
    have he : (parsed.getD []).isEmpty = true := by simp [hnil]
    exact ⟨by simp [assemble_config, he], rfl, rfl⟩
  · intro gs hgs hne
    have he : (parsed.getD []).isEmpty = false := by
      rw [hgs]
      simpa using hne
    simp [assemble_config, he, hgs]
    intro hnil
    exact absurd hnil hne

/-- Witness for C3: with no parsed gateways the assembled configuration
holds exactly the synthesized portal-host gateway. -/
theorem assemble_config_gateways_nonempty_witness :
    ((assemble_config "vpn.example.com" ⟨"user"⟩ none none none none).gateways ≠ [] ∧
    ((none : Option (List Gateway)).getD [] = [] →
      (assemble_config "vpn.example.com" ⟨"user"⟩ none none none none).gateways =
        [Gateway.new "vpn.example.com" "vpn.example.com"] ∧
      (Gateway.new "vpn.example.com" "vpn.example.com").name = "vpn.example.com" ∧
      (Gateway.new "vpn.example.com" "vpn.example.com").address = "vpn.example.com") ∧
    (∀ gs, (none : Option (List Gateway)) = some gs → gs ≠ [] →
      (assemble_config "vpn.example.com" ⟨"user"⟩ none none none none).gateways = gs)) :=
  assemble_config_gateways_nonempty "vpn.example.com" ⟨"user"⟩ none none none none

/-- Modelled from the spec: the error taxonomy of the collaborating error
module (spec §7): configuration errors and network errors, each carrying a
message. -/
inductive PortalError where
  | configError : String → PortalError
  | networkError : String → PortalError
deriving Repr, DecidableEq

/-- An error surfaced by `retrieve_config`: either a typed `PortalError`
(the `anyhow!(PortalError::...)` paths) or a plain formatted message (the
`bail!("Portal config error: ...")` path, which wraps no `PortalError`
value). -/
inductive RetrieveError where
  | portal : PortalError → RetrieveError
  | message : String → RetrieveError
deriving Repr, DecidableEq

/-- Modelled from the spec: the structured HTTP error produced by the
response-reader collaborator `parse_gp_response` — a status plus reason
text (spec §6). -/
structure GpError where
  status : Nat
  reason : String
deriving Repr, DecidableEq

/-- Modelled from the spec: `is_status_error` on the response-reader error
holds for error-range HTTP statuses (spec §4.5: any other error-range
status is logged and surfaced). -/
def GpError.is_status_error (e : GpError) : Bool := decide (400 ≤ e.status)

/-- The `or_else` error mapping of `retrieve_config` (source lines
110-121): 404 becomes the endpoint-not-found `ConfigError`; any other
status error becomes the plain formatted message; everything else becomes
a `ConfigError` carrying the reason text. -/
def map_config_error (err : GpError) : RetrieveError :=
  if err.status = 404 then RetrieveError.portal (PortalError.configError "Config endpoint not found")
  else if err.is_status_error then RetrieveError.message ("Portal config error: " ++ err.reason)
  else RetrieveError.portal (PortalError.configError err.reason)

/-- Discriminator: is a surfaced error the `ConfigError` variant of the
typed error taxonomy. -/
def isConfigError : RetrieveError → Bool
  | RetrieveError.portal (PortalError.configError _) => true
  | _ => false

/-- Counterexample to C8 as stated: a 500 response with reason text is
surfaced as the plain formatted message `Portal config error: ...`, not as
the `ConfigError` variant carrying the reason. -/
theorem map_config_error_cex :
    map_config_error ⟨500, "oops"⟩ = RetrieveError.message "Portal config error: oops" ∧
    isConfigError (map_config_error ⟨500, "oops"⟩) = false := by decide

/-- Claim C8 (amended): a 404 application status yields specifically the
`ConfigError` with message `Config endpoint not found`; any other
error-range status (400 and above) is surfaced as a plain anyhow message
`Portal config error: <reason>` rather than the `ConfigError` variant; any
other failed response is surfaced as a `ConfigError` carrying the
server-provided reason text — so for non-404 errors the `ConfigError`
variant appears exactly on the non-status-error path. -/
theorem map_config_error_spec (err : GpError) :
    (err.status = 404 →
      map_config_error err = RetrieveError.portal (PortalError.configError "Config endpoint not found")) ∧
    (err.status ≠ 404 → err.is_status_error = true →
      map_config_error err = RetrieveError.message ("Portal config error: " ++ err.reason)) ∧
    (err.status ≠ 404 → err.is_status_error = false →
      map_config_error err = RetrieveError.portal (PortalError.configError err.reason)) ∧
    (err.status ≠ 404 → isConfigError (map_config_error err) = true →
      map_config_error err = RetrieveError.portal (PortalError.configError err.reason)) := by
  refine ⟨?_, ?_, ?_, ?_⟩
  · intro h404
    simp [map_config_error, h404]
  · intro h404 hstatus
    simp [map_config_error, h404, hstatus]
  · intro h404 hstatus
    simp [map_config_error, h404, hstatus]
  · intro h404 hcfg
    by_cases hstatus : err.is_status_error
    · rw [map_config_error] at hcfg
      simp [h404, hstatus, isConfigError] at hcfg
    · simp [map_config_error, h404, hstatus]

/-- Witness for C8 (amended): applied at the 500-status error. -/
theorem map_config_error_spec_witness :
    (((500 : Nat) = 404) →
      map_config_error ⟨500, "oops"⟩ = RetrieveError.portal (PortalError.configError "Config endpoint not found")) ∧
    (((500 : Nat) ≠ 404) → (GpError.is_status_error ⟨500, "oops"⟩) = true →
      map_config_error ⟨500, "oops"⟩ = RetrieveError.message ("Portal config error: " ++ "oops")) ∧
    (((500 : Nat) ≠ 404) → (GpError.is_status_error ⟨500, "oops"⟩) = false →
      map_config_error ⟨500, "oops"⟩ = RetrieveError.portal (PortalError.configError "oops")) ∧
    (((500 : Nat) ≠ 404) → isConfigError (map_config_error ⟨500, "oops"⟩) = true →
      map_config_error ⟨500, "oops"⟩ = RetrieveError.portal (PortalError.configError "oops")) :=
  map_config_error_spec ⟨500, "oops"⟩

/-- The optional child texts of the parsed response document that
`retrieve_config` reads (the generic XML-walking collaborator is out of
scope; only the extracted optional texts matter). -/
structure Doc where
  internal_host_detection : Option String
  ip_address : Option String
  host : Option String
  ipv6_address : Option String
  ipv6_host : Option String
deriving Repr, DecidableEq

/-- The `for (ip_address, host) in ip_info` loop of the topology
classifier (source lines 140-156), parameterized by the reverse-DNS
collaborator `lookup` and the IP-literal parser `parseIp`: a pair whose
address or hostname is absent or empty, or whose address does not parse,
is skipped; a failed or mismatched lookup continues to the next pair; a
lookup resolving exactly to the supplied hostname stops the loop with the
flag cleared (`false`). -/
def check_pairs {α : Type} (lookup : α → Except String String) (parseIp : String → Option α) :
    List (Option String × Option String) → Bool
  | [] => true
  | (some ip, some h) :: rest =>
    if ip ≠ "" ∧ h ≠ "" then
      match parseIp ip with
      | some a =>
        match lookup a with
        | Except.ok n => if n = h then false else check_pairs lookup parseIp rest
        | Except.error _ => check_pairs lookup parseIp rest
      | none => check_pairs lookup parseIp rest
    else check_pairs lookup parseIp rest
  | _ :: rest => check_pairs lookup parseIp rest

/-- A single address/hostname pair confirms internal reachability: both
fields present and non-empty, the address parses, and the reverse lookup
resolves exactly to the supplied hostname. -/
def pair_confirms {α : Type} (lookup : α → Except String String) (parseIp : String → Option α) :
    Option String × Option String → Bool
  | (some ip, some h) =>
    if ip ≠ "" ∧ h ≠ "" then
      match parseIp ip with
      | some a =>
        match lookup a with
        | Except.ok n => decide (n = h)
        | Except.error _ => false
      | none => false
    else false
  | _ => false

/-- The topology classifier of `retrieve_config` (source lines 129-157):
`external_gateway` starts `true`; only when the document carries the
`internal-host-detection` marker are the IPv4 pair and then the IPv6 pair
examined. -/
def classify {α : Type} (lookup : α → Except String String) (parseIp : String → Option α) (doc : Doc) : Bool :=
  match doc.internal_host_detection with
  | some _ => check_pairs lookup parseIp [(doc.ip_address, doc.host), (doc.ipv6_address, doc.ipv6_host)]
  | none => true

theorem check_pairs_eq_not_any {α : Type} (lookup : α → Except String String) (parseIp : String → Option α) :
    ∀ l, check_pairs lookup parseIp l = !(l.any (pair_confirms lookup parseIp)) := by
  intro l
  induction l with
  | nil => rfl
  | cons p rest ih =>
    rcases p with ⟨ipo, ho⟩
    cases ipo with
    | none => simpa [check_pairs, pair_confirms] using ih
    | some ip =>
      cases ho with
      | none => simpa [check_pairs, pair_confirms] using ih
      | some hh =>
        by_cases hne : ip ≠ "" ∧ hh ≠ ""
        · cases hpi : parseIp ip with
          | none => simp [check_pairs, pair_confirms, hne, hpi, ih]
          | some a =>
            cases hlk : lookup a with
            | error e => simp [check_pairs, pair_confirms, hne, hpi, hlk, ih]
            | ok n =>
              by_cases hn : n = hh
              · simp [check_pairs, pair_confirms, hne, hpi, hlk, hn]
              · simp [check_pairs, pair_confirms, hne, hpi, hlk, hn, ih]
        · simp [check_pairs, pair_confirms, hne, ih]

/-- Claim C7: the classifier yields `true` when the document has no
`internal-host-detection` marker; with the marker it checks the IPv4 pair
before the IPv6 pair, skips pairs with an absent, empty or unparsable
address or an absent or empty hostname, continues past failed or
mismatched lookups (never an error), and yields `false` exactly when some
pair's reverse lookup resolves to the supplied hostname — a confirming
IPv4 pair alone already forces `false`. -/
theorem classify_spec {α : Type} (lookup : α → Except String String) (parseIp : String → Option α) (doc : Doc) :
    (doc.internal_host_detection = none → classify lookup parseIp doc = true) ∧
    (∀ m, doc.internal_host_detection = some m →
      classify lookup parseIp doc =
        check_pairs lookup parseIp [(doc.ip_address, doc.host), (doc.ipv6_address, doc.ipv6_host)]) ∧
    (classify lookup parseIp doc = false ↔
      ∃ m, doc.internal_host_detection = some m ∧
        (pair_confirms lookup parseIp (doc.ip_address, doc.host) = true ∨
          pair_confirms lookup parseIp (doc.ipv6_address, doc.ipv6_host) = true)) ∧
    (pair_confirms lookup parseIp (doc.ip_address, doc.host) = true →
      doc.internal_host_detection ≠ none → classify lookup parseIp doc = false) ∧
    (∀ ho rest, check_pairs lookup parseIp ((none, ho) :: rest) = check_pairs lookup parseIp rest) ∧
    (∀ ipo rest, check_pairs lookup parseIp ((ipo, none) :: rest) = check_pairs lookup parseIp rest) ∧
    (∀ hh rest, check_pairs lookup parseIp ((some "", some hh) :: rest) = check_pairs lookup parseIp rest) ∧
    (∀ ip rest, check_pairs lookup parseIp ((some ip, some "") :: rest) = check_pairs lookup parseIp rest) ∧
    (∀ ip hh rest, parseIp ip = none →
      check_pairs lookup parseIp ((some ip, some hh) :: rest) = check_pairs lookup parseIp rest) ∧
    (∀ ip hh a e rest, parseIp ip = some a → lookup a = Except.error e →
      check_pairs lookup parseIp ((some ip, some hh) :: rest) = check_pairs lookup parseIp rest) ∧
    (∀ ip hh a n rest, parseIp ip = some a → lookup a = Except.ok n → n ≠ hh →
      check_pairs lookup parseIp ((some ip, some hh) :: rest) = check_pairs lookup parseIp rest) ∧
    (∀ ip hh a rest, ip ≠ "" → hh ≠ "" → parseIp ip = some a → lookup a = Except.ok hh →
      check_pairs lookup parseIp ((some ip, some hh) :: rest) = false) := by
  refine ⟨?_, ?_, ?_, ?_, ?_, ?_, ?_, ?_, ?_, ?_, ?_, ?_⟩
  · intro hm
    simp [classify, hm]
  · intro m hm
    simp [classify, hm]
  · cases hm : doc.internal_host_detection with
    | none =>
      simp [classify, hm]
    | some m =>
      rw [classify]
      simp only [hm]
      rw [check_pairs_eq_not_any]
      simp
      cases hb : pair_confirms lookup parseIp (doc.ip_address, doc.host) with
      | true => simp
      | false => simp
  · intro h4 hm
    cases hmm : doc.internal_host_detection with
    | none => exact absurd hmm hm
    | some m =>
      rw [classify]
      simp only [hmm]
      rw [check_pairs_eq_not_any]
      simp [h4]
  · intro ho rest
    cases ho with
    | none => rfl
    | some hh => rfl
  · intro ipo rest
    cases ipo with
    | none => rfl
    | some ip => rfl
  · intro hh rest
    simp [check_pairs]
  · intro ip rest
    by_cases hne : ip ≠ "" ∧ ("" : String) ≠ ""
    · exact absurd rfl hne.2
    · simp [check_pairs, hne]
  · intro ip hh rest hpi
    by_cases hne : ip ≠ "" ∧ hh ≠ ""
    · simp [check_pairs, hne, hpi]
    · simp [check_pairs, hne]
  · intro ip hh a e rest hpi hlk
    by_cases hne : ip ≠ "" ∧ hh ≠ ""
    · simp [check_pairs, hne, hpi, hlk]
    · simp [check_pairs, hne]
  · intro ip hh a n rest hpi hlk hn
    by_cases hne : ip ≠ "" ∧ hh ≠ ""
    · simp [check_pairs, hne, hpi, hlk, hn]
    · simp [check_pairs, hne]
  · intro ip hh a rest hip hhh hpi hlk
    have hne : ip ≠ "" ∧ hh ≠ "" := ⟨hip, hhh⟩
    simp [check_pairs, hne, hpi, hlk]

/-- Witness reverse-DNS collaborator: every lookup resolves to
`vpn.example` (spec §8 example). -/
def lookupW : Nat → Except String String := fun _ => Except.ok "vpn.example"

/-- Witness IP-literal parser: accepts exactly `10.0.0.1`. -/
def parseIpW : String → Option Nat := fun s => if s = "10.0.0.1" then some 0 else none

/-- Witness document: marker present, IPv4 pair `10.0.0.1` / `vpn.example`,
no IPv6 pair. -/
def docW : Doc := ⟨some "", some "10.0.0.1", some "vpn.example", none, none⟩

/-- Witness for C7: applied at the spec §8 example, where the classifier
yields `false` through the IPv4 pair. -/
theorem classify_spec_witness :
    ((docW.internal_host_detection = none → classify lookupW parseIpW docW = true) ∧
    (∀ m, docW.internal_host_detection = some m →
      classify lookupW parseIpW docW =
        check_pairs lookupW parseIpW [(docW.ip_address, docW.host), (docW.ipv6_address, docW.ipv6_host)]) ∧
    (classify lookupW parseIpW docW = false ↔
      ∃ m, docW.internal_host_detection = some m ∧
        (pair_confirms lookupW parseIpW (docW.ip_address, docW.host) = true ∨
          pair_confirms lookupW parseIpW (docW.ipv6_address, docW.ipv6_host) = true)) ∧
    (pair_confirms lookupW parseIpW (docW.ip_address, docW.host) = true →
      docW.internal_host_detection ≠ none → classify lookupW parseIpW docW = false) ∧
    (∀ ho rest, check_pairs lookupW parseIpW ((none, ho) :: rest) = check_pairs lookupW parseIpW rest) ∧
    (∀ ipo rest, check_pairs lookupW parseIpW ((ipo, none) :: rest) = check_pairs lookupW parseIpW rest) ∧
    (∀ hh rest, check_pairs lookupW parseIpW ((some "", some hh) :: rest) = check_pairs lookupW parseIpW rest) ∧
    (∀ ip rest, check_pairs lookupW parseIpW ((some ip, some "") :: rest) = check_pairs lookupW parseIpW rest) ∧
    (∀ ip hh rest, parseIpW ip = none →
      check_pairs lookupW parseIpW ((some ip, some hh) :: rest) = check_pairs lookupW parseIpW rest) ∧
    (∀ ip hh a e rest, parseIpW ip = some a → lookupW a = Except.error e →
      check_pairs lookupW parseIpW ((some ip, some hh) :: rest) = check_pairs lookupW parseIpW rest) ∧
    (∀ ip hh a n rest, parseIpW ip = some a → lookupW a = Except.ok n → n ≠ hh →
      check_pairs lookupW parseIpW ((some ip, some hh) :: rest) = check_pairs lookupW parseIpW rest) ∧
    (∀ ip hh a rest, ip ≠ "" → hh ≠ "" → parseIpW ip = some a → lookupW a = Except.ok hh →
      check_pairs lookupW parseIpW ((some ip, some hh) :: rest) = false)) :=
  classify_spec lookupW parseIpW docW

/-- Body handling of `retrieve_config` (source lines 123-127): an empty
decoded body is a `ConfigError` with the fixed message
`Empty portal config response`, raised before the document parser runs; a
parse failure becomes a `ConfigError` carrying the parser's message. -/
def process_body (parse : String → Except String Doc) (body : String) : Except PortalError Doc :=
  if body = "" then Except.error (PortalError.configError "Empty portal config response")
  else
    match parse body with
    | Except.ok d => Except.ok d
    | Except.error e => Except.error (PortalError.configError e)

/-- Claim C9: an empty body always produces a `ConfigError` (never a
successful parse result), with the fixed message
`Empty portal config response`; a non-empty body that fails to parse
produces a `ConfigError` carrying the parser's message, and the two errors
coincide only if the parser itself emits that exact fixed message. -/
theorem process_body_empty (parse : String → Except String Doc) :
    process_body parse "" = Except.error (PortalError.configError "Empty portal config response") ∧
    (∀ d, process_body parse "" ≠ Except.ok d) ∧
    (∀ s e, s ≠ "" → parse s = Except.error e →
      process_body parse s = Except.error (PortalError.configError e)) ∧
    (∀ s e, s ≠ "" → parse s = Except.error e →
      (process_body parse s = process_body parse "" ↔ e = "Empty portal config response")) := by
  refine ⟨?_, ?_, ?_, ?_⟩
  · simp [process_body]
  · intro d
    simp [process_body]
  · intro s e hs he
    simp [process_body, hs, he]
  · intro s e hs he
    simp [process_body, hs, he]

/-- Witness parser: fails on every body with a fixed parse message. -/
def parseW : String → Except String Doc := fun _ => Except.error "the root node was not found"

/-- Witness for C9: applied at the failing parser and the non-empty body
`<bad`. -/
theorem process_body_empty_witness :
    (process_body parseW "" = Except.error (PortalError.configError "Empty portal config response") ∧
    (∀ d, process_body parseW "" ≠ Except.ok d) ∧
    (∀ s e, s ≠ "" → parseW s = Except.error e →
      process_body parseW s = Except.error (PortalError.configError e)) ∧
    (∀ s e, s ≠ "" → parseW s = Except.error e →
      (process_body parseW s = process_body parseW "" ↔ e = "Empty portal config response"))) :=
  process_body_empty parseW
